import Mathlib

set_option linter.unusedSectionVars false

/-!
Verification of the RabbitMQ management REST client
(`rabbitmq_rest_client.go`) against its specification.

Shallow embedding.  The external collaborators are modelled as explicit
parameters:

* the HTTP transport (Go's `http.Client`) is modelled by an outcome value
  per request (`GetOutcome` for GET, `DelOutcome` for DELETE);
* JSON decoding (`json.Unmarshal`) is modelled by a `decode` function
  parameter, one decoder per expected result type.  The source always
  calls `Unmarshal` on a freshly allocated zero value, so `decode a body`
  returns the state of that target after the call together with the
  optional error: on success the decoded value with no error; on failure
  the error plus whatever `Unmarshal` left in the target — the zero value
  for syntax errors, but possibly a partially populated value for
  type-mismatch errors, since `Unmarshal` is documented to skip the
  offending field and complete the unmarshaling as best it can;
* the six decoded payload types (`RabbitOverview`, `[]RabbitConnection`,
  `[]RabbitExchange`, `[]RabbitQueue`, `[]RabbitConsumer`,
  `[]RabbitBinding`) are an abstract family `Value : Resource → Type`
  with an `Inhabited` instance supplying the Go zero value produced by
  `reflect.New`;
* the scheduler's choice of the order in which the six goroutines of
  `BrokerInfo` deliver their results is an explicit `order : List Resource`
  argument (each channel delivers exactly one response, so a real run
  corresponds to a permutation of the six resources).

Go's `error` interface values produced by the client are modelled by
`GoError`; `nil` errors are `Option.none`.
-/

/-- The six resource kinds fetched by the client.  In the Go source a
resource's expected result type is carried as a `reflect.Type` in
`httpRequest.t`; this enumeration plays that role. -/
inductive Resource
  | overview
  | connections
  | exchanges
  | queues
  | consumers
  | bindings
deriving DecidableEq

/-- All six resources, in the order `BrokerInfo` launches their fetches. -/
def allResources : List Resource :=
  [.overview, .connections, .exchanges, .queues, .consumers, .bindings]

/-- Go `error` values produced by the client code.  The constructor records
the provenance of the error: `transport` wraps an error returned by the
`http.Client` (`Get`, `Do`) or by `http.NewRequest`; `statusErr` is the
`errors.New(resp.Status)` error built for an unexpected HTTP status;
`decodeErr` wraps an error returned by `json.Unmarshal`. -/
inductive GoError
  | transport (msg : String)
  | statusErr (status : String)
  | decodeErr (msg : String)
deriving DecidableEq

/-- The status line string of an HTTP response, as in Go's
`http.Response.Status` (e.g. `"503 Service Unavailable"`). -/
def statusLine (code : Nat) (text : String) : String :=
  toString code ++ " " ++ text

/-- Behaviour of the HTTP transport for one GET request: either the
`http.Client.Get` call itself fails, or it yields a response with a status
code, a status reason text and a body. -/
inductive GetOutcome
  | transportErr (msg : String)
  | response (statusCode : Nat) (statusText : String) (body : String)
deriving DecidableEq

/-- Behaviour of the transport for one DELETE request: `http.NewRequest`
may fail, `http.Client.Do` may fail, or a response with a status arrives. -/
inductive DelOutcome
  | newRequestErr (msg : String)
  | doErr (msg : String)
  | response (statusCode : Nat) (statusText : String)
deriving DecidableEq

/-- `RabbitHTTPClient` from the source; the `http.Client` field is modelled
by the per-request outcome parameters of the methods. -/
structure RabbitHTTPClient where
  uri : String

/-- `httpRequest` from the source: a uri and the expected result type. -/
structure httpRequest where
  uri : String
  t : Resource

section Model

variable {Value : Resource → Type} [∀ a, Inhabited (Value a)]

/-- `httpResponse` from the source.  The Go field `result interface{}`
always holds a `*T` for the requested type `T`; the interface value is
modelled as a dependent pair tagging the value with its type. -/
structure httpResponse (Value : Resource → Type) where
  result : Sigma Value
  err : Option GoError

/-- The Go type assertion `res.result.(*T)`: succeeds exactly when the
dynamic type matches, otherwise the Go program panics (`none` here). -/
def assertAs (t : Resource) (v : Sigma Value) : Option (Value t) :=
  if h : v.1 = t then some (h ▸ v.2) else none

variable (decode : (a : Resource) → String → Value a × Option String)

/-- `getResource` from the source.  `reflect.New(request.t)` yields a
pointer to the zero value (`default`); the goroutine body then follows the
source: transport error, status check (`resp.StatusCode != 200`, the error
carrying `resp.Status`), then `json.Unmarshal` into the fresh value.  On
both `Unmarshal` outcomes the source sends the same pointer `r`, so the
result carries the post-`Unmarshal` state of the target (`(decode ...).1`)
whether or not decoding failed: on a decode error that state may be
partially populated, not necessarily the zero value. -/
def RabbitHTTPClient.getResource (_s : RabbitHTTPClient) (request : httpRequest)
    (outcome : GetOutcome) : httpResponse Value :=
  let r : Value request.t := default
  match outcome with
  | .transportErr msg => { result := ⟨request.t, r⟩, err := some (.transport msg) }
  | .response code text body =>
    if code ≠ 200 then
      { result := ⟨request.t, r⟩, err := some (.statusErr (statusLine code text)) }
    else
      match decode request.t body with
      | (v, some e) => { result := ⟨request.t, v⟩, err := some (.decodeErr e) }
      | (v, none) => { result := ⟨request.t, v⟩, err := none }

/-- The sequence of sends the `getResource` goroutine performs on its
channel: every control path of the source ends in exactly one
`res <- httpResponse{...}` followed by `return`.  As in `getResource`, the
decode-error send carries the post-`Unmarshal` state of the target. -/
def RabbitHTTPClient.getResourceSends (_s : RabbitHTTPClient) (request : httpRequest)
    (outcome : GetOutcome) : List (httpResponse Value) :=
  let r : Value request.t := default
  match outcome with
  | .transportErr msg => [{ result := ⟨request.t, r⟩, err := some (.transport msg) }]
  | .response code text body =>
    if code ≠ 200 then
      [{ result := ⟨request.t, r⟩, err := some (.statusErr (statusLine code text)) }]
    else
      match decode request.t body with
      | (v, some e) => [{ result := ⟨request.t, v⟩, err := some (.decodeErr e) }]
      | (v, none) => [{ result := ⟨request.t, v⟩, err := none }]

/-- `delResource` from the source: request-construction error, transport
error, then `resp.StatusCode != 200 && resp.StatusCode != 204` yielding
`errors.New(resp.Status)`. -/
def RabbitHTTPClient.delResource (_s : RabbitHTTPClient) (_uri : String)
    (outcome : DelOutcome) : Option GoError :=
  match outcome with
  | .newRequestErr msg => some (.transport msg)
  | .doErr msg => some (.transport msg)
  | .response code text =>
    if code ≠ 200 ∧ code ≠ 204 then some (.statusErr (statusLine code text)) else none

/-- The resource path appended to the base uri by each getter. -/
def resourcePath : Resource → String
  | .overview => "/overview"
  | .connections => "/connections"
  | .exchanges => "/exchanges"
  | .queues => "/queues"
  | .consumers => "/consumers"
  | .bindings => "/bindings"

/-- `getConnections` from the source. -/
def RabbitHTTPClient.getConnections (s : RabbitHTTPClient) (o : GetOutcome) :
    httpResponse Value :=
  s.getResource decode { uri := s.uri ++ "/connections", t := Resource.connections } o

/-- `getOverview` from the source. -/
def RabbitHTTPClient.getOverview (s : RabbitHTTPClient) (o : GetOutcome) :
    httpResponse Value :=
  s.getResource decode { uri := s.uri ++ "/overview", t := Resource.overview } o

/-- `getExchanges` from the source. -/
def RabbitHTTPClient.getExchanges (s : RabbitHTTPClient) (o : GetOutcome) :
    httpResponse Value :=
  s.getResource decode { uri := s.uri ++ "/exchanges", t := Resource.exchanges } o

/-- `getQueues` from the source. -/
def RabbitHTTPClient.getQueues (s : RabbitHTTPClient) (o : GetOutcome) :
    httpResponse Value :=
  s.getResource decode { uri := s.uri ++ "/queues", t := Resource.queues } o

/-- `getConsumers` from the source. -/
def RabbitHTTPClient.getConsumers (s : RabbitHTTPClient) (o : GetOutcome) :
    httpResponse Value :=
  s.getResource decode { uri := s.uri ++ "/consumers", t := Resource.consumers } o

/-- `getBindings` from the source. -/
def RabbitHTTPClient.getBindings (s : RabbitHTTPClient) (o : GetOutcome) :
    httpResponse Value :=
  s.getResource decode { uri := s.uri ++ "/bindings", t := Resource.bindings } o

/-- `BrokerInfo` struct from the source: the aggregate snapshot. -/
structure BrokerInfo (Value : Resource → Type) where
  Overview : Value Resource.overview
  Connections : Value Resource.connections
  Exchanges : Value Resource.exchanges
  Queues : Value Resource.queues
  Consumers : Value Resource.consumers
  Bindings : Value Resource.bindings

/-- Synonym for the snapshot type, needed where the method name
`RabbitHTTPClient.BrokerInfo` shadows the structure name. -/
abbrev Snapshot (V : Resource → Type) : Type := BrokerInfo V

/-- The zero value of the named return `r BrokerInfo` in the Go method. -/
def BrokerInfo.zero : BrokerInfo Value :=
  ⟨default, default, default, default, default, default⟩

/-- The `numExpectedResources` constant of the Go method. -/
def numExpectedResources : Nat := 6

/-- Field access on the snapshot, indexed by resource. -/
def getField (r : BrokerInfo Value) : (a : Resource) → Value a
  | .overview => r.Overview
  | .connections => r.Connections
  | .exchanges => r.Exchanges
  | .queues => r.Queues
  | .consumers => r.Consumers
  | .bindings => r.Bindings

/-- Field update on the snapshot, indexed by resource. -/
def setField (r : BrokerInfo Value) : (a : Resource) → Value a → BrokerInfo Value
  | .overview, x => { r with Overview := x }
  | .connections, x => { r with Connections := x }
  | .exchanges, x => { r with Exchanges := x }
  | .queues, x => { r with Queues := x }
  | .consumers, x => { r with Consumers := x }
  | .bindings, x => { r with Bindings := x }

/-- One iteration of the `select` statement in `BrokerInfo`, for the
channel `a` chosen by the scheduler.  Each case performs the source's type
assertion (`none` models the resulting panic) and writes the field; the
second component is the value of the outer `res` variable as seen by the
`if res.err != nil` check that follows the select.

Faithfulness note: in the source the first case reads
`case res := <-overview:` — the `:=` declares a NEW `res` local to that
case, shadowing the `var res httpResponse` declared before the select, so
after an overview completion the checked `res` is still the zero value and
its `err` field is nil.  The five other cases use `res = <-...` and assign
the outer variable.  Hence the `none` in the overview branch below. -/
def selectCase (f : Resource → httpResponse Value) (a : Resource)
    (r : BrokerInfo Value) : Option (BrokerInfo Value × Option GoError) :=
  match a with
  | .overview =>
    (assertAs Resource.overview (f Resource.overview).result).map
      (fun x => ({ r with Overview := x }, none))
  | .connections =>
    (assertAs Resource.connections (f Resource.connections).result).map
      (fun x => ({ r with Connections := x }, (f Resource.connections).err))
  | .exchanges =>
    (assertAs Resource.exchanges (f Resource.exchanges).result).map
      (fun x => ({ r with Exchanges := x }, (f Resource.exchanges).err))
  | .queues =>
    (assertAs Resource.queues (f Resource.queues).result).map
      (fun x => ({ r with Queues := x }, (f Resource.queues).err))
  | .consumers =>
    (assertAs Resource.consumers (f Resource.consumers).result).map
      (fun x => ({ r with Consumers := x }, (f Resource.consumers).err))
  | .bindings =>
    (assertAs Resource.bindings (f Resource.bindings).result).map
      (fun x => ({ r with Bindings := x }, (f Resource.bindings).err))

/-- The `for { select { ... } ... }` loop of `BrokerInfo`.  `order` is the
sequence of channels the scheduler makes ready (each channel fires once, so
a complete run consumes a permutation of the six resources).  After the
select the source checks `res.err`, returns the named results on error,
increments `count` and returns once `count == numExpectedResources`.
`none` models a run that never returns a value: a type-assertion panic, or
the select blocking forever because no channel ever fires again. -/
def brokerInfoLoop (f : Resource → httpResponse Value) :
    List Resource → BrokerInfo Value → Nat →
    Option (BrokerInfo Value × Option GoError)
  | [], _, _ => none
  | a :: rest, r, count =>
    match selectCase f a r with
    | none => none
    | some (r', resErr) =>
      match resErr with
      | some e => some (r', some e)
      | none =>
        if count + 1 = numExpectedResources then some (r', none)
        else brokerInfoLoop f rest r' (count + 1)

/-- The six channels `BrokerInfo` creates before entering its loop, one
getter invocation per resource, exactly as in the source. -/
def RabbitHTTPClient.brokerChannels (s : RabbitHTTPClient)
    (outcome : Resource → GetOutcome) : Resource → httpResponse Value
  | .overview => s.getOverview decode (outcome .overview)
  | .connections => s.getConnections decode (outcome .connections)
  | .exchanges => s.getExchanges decode (outcome .exchanges)
  | .queues => s.getQueues decode (outcome .queues)
  | .consumers => s.getConsumers decode (outcome .consumers)
  | .bindings => s.getBindings decode (outcome .bindings)

/-- The `BrokerInfo` method from the source: launch the six getters, then
run the fan-in loop starting from the zero-valued named return and
`count = 0`. -/
def RabbitHTTPClient.BrokerInfo (s : RabbitHTTPClient)
    (outcome : Resource → GetOutcome) (order : List Resource) :
    Option (BrokerInfo Value × Option GoError) :=
  brokerInfoLoop (s.brokerChannels decode outcome) order BrokerInfo.zero 0

/-- `Connections` accessor from the source: block on the single completion,
assert the result type (panic modelled as `none`) and return value and
error. -/
def RabbitHTTPClient.Connections (s : RabbitHTTPClient) (o : GetOutcome) :
    Option (Value Resource.connections × Option GoError) :=
  let result := s.getConnections decode o
  (assertAs Resource.connections result.result).map (fun v => (v, result.err))

/-- `Overview` accessor from the source. -/
def RabbitHTTPClient.Overview (s : RabbitHTTPClient) (o : GetOutcome) :
    Option (Value Resource.overview × Option GoError) :=
  let result := s.getOverview decode o
  (assertAs Resource.overview result.result).map (fun v => (v, result.err))

/-- `Exchanges` accessor from the source. -/
def RabbitHTTPClient.Exchanges (s : RabbitHTTPClient) (o : GetOutcome) :
    Option (Value Resource.exchanges × Option GoError) :=
  let result := s.getExchanges decode o
  (assertAs Resource.exchanges result.result).map (fun v => (v, result.err))

/-- `Queues` accessor from the source. -/
def RabbitHTTPClient.Queues (s : RabbitHTTPClient) (o : GetOutcome) :
    Option (Value Resource.queues × Option GoError) :=
  let result := s.getQueues decode o
  (assertAs Resource.queues result.result).map (fun v => (v, result.err))

/-- `Consumers` accessor from the source. -/
def RabbitHTTPClient.Consumers (s : RabbitHTTPClient) (o : GetOutcome) :
    Option (Value Resource.consumers × Option GoError) :=
  let result := s.getConsumers decode o
  (assertAs Resource.consumers result.result).map (fun v => (v, result.err))

/-- `Bindings` accessor from the source. -/
def RabbitHTTPClient.Bindings (s : RabbitHTTPClient) (o : GetOutcome) :
    Option (Value Resource.bindings × Option GoError) :=
  let result := s.getBindings decode o
  (assertAs Resource.bindings result.result).map (fun v => (v, result.err))

/-- Dispatch to the per-resource accessor for `a`. -/
def RabbitHTTPClient.fetchOne (s : RabbitHTTPClient) (a : Resource) (o : GetOutcome) :
    Option (Value a × Option GoError) :=
  match a with
  | .overview => s.Overview decode o
  | .connections => s.Connections decode o
  | .exchanges => s.Exchanges decode o
  | .queues => s.Queues decode o
  | .consumers => s.Consumers decode o
  | .bindings => s.Bindings decode o

/-- The uri built by `CloseConnection` for its DELETE request. -/
def RabbitHTTPClient.closeConnectionUri (s : RabbitHTTPClient)
    (conn _reason : String) : String :=
  s.uri ++ "/connections/" ++ conn

/-- `CloseConnection` from the source: DELETE on the connection resource.
The `reason` parameter is accepted but not used by the source. -/
def RabbitHTTPClient.CloseConnection (s : RabbitHTTPClient)
    (conn reason : String) (o : DelOutcome) : Option GoError :=
  s.delResource (s.closeConnectionUri conn reason) o

end Model

/-- Events for the temporal start-before-consume property of `BrokerInfo`:
`started a` is the launch of the getter goroutine for resource `a`,
`consumed a` is the receive of its result in the fan-in loop. -/
inductive FetchEvent
  | started (a : Resource)
  | consumed (a : Resource)
deriving DecidableEq

section Trace

variable {Value : Resource → Type} [∀ a, Inhabited (Value a)]
variable (decode : (a : Resource) → String → Value a × Option String)

/-- The fan-in loop of `BrokerInfo` with its channel receives recorded as
`consumed` events.  Same control flow as `brokerInfoLoop`. -/
def brokerInfoLoopTr (f : Resource → httpResponse Value) :
    List Resource → BrokerInfo Value → Nat →
    List FetchEvent × Option (BrokerInfo Value × Option GoError)
  | [], _, _ => ([], none)
  | a :: rest, r, count =>
    match selectCase f a r with
    | none => ([FetchEvent.consumed a], none)
    | some (r', resErr) =>
      match resErr with
      | some e => ([FetchEvent.consumed a], some (r', some e))
      | none =>
        if count + 1 = numExpectedResources then
          ([FetchEvent.consumed a], some (r', none))
        else
          (FetchEvent.consumed a :: (brokerInfoLoopTr f rest r' (count + 1)).1,
           (brokerInfoLoopTr f rest r' (count + 1)).2)

/-- `BrokerInfo` with its events made explicit: the six getter calls each
start a fetch, in source order, strictly before the consuming loop runs;
the loop then produces the `consumed` events and the result. -/
def RabbitHTTPClient.BrokerInfoTr (s : RabbitHTTPClient)
    (outcome : Resource → GetOutcome) (order : List Resource) :
    List FetchEvent × Option (Snapshot Value × Option GoError) :=
  ([FetchEvent.started Resource.overview, FetchEvent.started Resource.connections,
    FetchEvent.started Resource.exchanges, FetchEvent.started Resource.queues,
    FetchEvent.started Resource.consumers, FetchEvent.started Resource.bindings] ++
      (brokerInfoLoopTr (s.brokerChannels decode outcome) order BrokerInfo.zero 0).1,
   (brokerInfoLoopTr (s.brokerChannels decode outcome) order BrokerInfo.zero 0).2)

end Trace

section Lemmas

variable {Value : Resource → Type} [∀ a, Inhabited (Value a)]
variable (decode : (a : Resource) → String → Value a × Option String)

lemma assertAs_self (t : Resource) (x : Value t) :
    assertAs t (⟨t, x⟩ : Sigma Value) = some x := by
  simp [assertAs]

lemma getResource_transportErr (s : RabbitHTTPClient) (request : httpRequest)
    (msg : String) :
    s.getResource decode request (GetOutcome.transportErr msg) =
      { result := ⟨request.t, default⟩, err := some (GoError.transport msg) } := rfl

lemma getResource_badStatus (s : RabbitHTTPClient) (request : httpRequest)
    (code : Nat) (text body : String) (h : code ≠ 200) :
    s.getResource decode request (GetOutcome.response code text body) =
      { result := ⟨request.t, default⟩,
        err := some (GoError.statusErr (statusLine code text)) } := by
  simp [RabbitHTTPClient.getResource, h]

lemma getResource_decodeErr (s : RabbitHTTPClient) (request : httpRequest)
    (text body : String) (v : Value request.t) (e : String)
    (h : decode request.t body = (v, some e)) :
    s.getResource decode request (GetOutcome.response 200 text body) =
      { result := ⟨request.t, v⟩, err := some (GoError.decodeErr e) } := by
  simp [RabbitHTTPClient.getResource, h]

lemma getResource_ok (s : RabbitHTTPClient) (request : httpRequest)
    (text body : String) (v : Value request.t)
    (h : decode request.t body = (v, none)) :
    s.getResource decode request (GetOutcome.response 200 text body) =
      { result := ⟨request.t, v⟩, err := none } := by
  simp [RabbitHTTPClient.getResource, h]

lemma getResource_result_fst (s : RabbitHTTPClient) (request : httpRequest)
    (o : GetOutcome) :
    ((s.getResource decode request o).result).1 = request.t := by
  cases o with
  | transportErr msg => rfl
  | response code text body =>
    by_cases h : code = 200
    · subst h
      rcases hd : decode request.t body with ⟨v, _ | e⟩
      · rw [getResource_ok decode s request text body v hd]
      · rw [getResource_decodeErr decode s request text body v e hd]
    · rw [getResource_badStatus decode s request code text body h]

lemma brokerChannels_eq (s : RabbitHTTPClient) (outcome : Resource → GetOutcome)
    (a : Resource) :
    s.brokerChannels decode outcome a =
      s.getResource decode { uri := s.uri ++ resourcePath a, t := a } (outcome a) := by
  cases a <;> rfl

lemma fetchOne_eq (s : RabbitHTTPClient) (a : Resource) (o : GetOutcome) :
    s.fetchOne decode a o =
      (assertAs a (s.getResource decode { uri := s.uri ++ resourcePath a, t := a } o).result).map
        (fun v => (v, (s.getResource decode { uri := s.uri ++ resourcePath a, t := a } o).err)) := by
  cases a <;> rfl

lemma selectCase_eq (f : Resource → httpResponse Value) (a : Resource)
    (r : BrokerInfo Value) (x : Value a) (hr : (f a).result = ⟨a, x⟩) :
    selectCase f a r = some (setField r a x,
      if a = Resource.overview then none else (f a).err) := by
  cases a <;> simp [selectCase, setField, hr, assertAs_self]

lemma getField_setField_same (r : BrokerInfo Value) (b : Resource) (x : Value b) :
    getField (setField r b x) b = x := by
  cases b <;> rfl

lemma getField_setField_ne (r : BrokerInfo Value) (a b : Resource) (x : Value b)
    (h : a ≠ b) : getField (setField r b x) a = getField r a := by
  cases a <;> cases b <;> first | rfl | exact absurd rfl h

lemma getField_foldl (v : (a : Resource) → Value a) :
    ∀ (order : List Resource) (r : BrokerInfo Value) (a : Resource),
      getField (order.foldl (fun acc b => setField acc b (v b)) r) a =
        if a ∈ order then v a else getField r a
  | [], r, a => by simp
  | b :: rest, r, a => by
    by_cases hmem : a ∈ rest
    · simp [List.foldl_cons, getField_foldl v rest, hmem, List.mem_cons]
    · by_cases hab : a = b
      · subst hab
        simp [List.foldl_cons, getField_foldl v rest, hmem, getField_setField_same]
      · simp [List.foldl_cons, getField_foldl v rest, hmem, hab,
          getField_setField_ne r a b (v b) hab]

lemma sigma_eta_of_fst (v : Sigma Value) (a : Resource) (h : v.1 = a) :
    ∃ x : Value a, v = ⟨a, x⟩ := by
  subst h
  exact ⟨v.2, rfl⟩

lemma brokerInfoLoop_cons (f : Resource → httpResponse Value) (a : Resource)
    (rest : List Resource) (r : BrokerInfo Value) (count : Nat) :
    brokerInfoLoop f (a :: rest) r count =
      match selectCase f a r with
      | none => none
      | some (r', resErr) =>
        match resErr with
        | some e => some (r', some e)
        | none =>
          if count + 1 = numExpectedResources then some (r', none)
          else brokerInfoLoop f rest r' (count + 1) := rfl

lemma brokerInfoLoopTr_cons (f : Resource → httpResponse Value) (a : Resource)
    (rest : List Resource) (r : BrokerInfo Value) (count : Nat) :
    brokerInfoLoopTr f (a :: rest) r count =
      match selectCase f a r with
      | none => ([FetchEvent.consumed a], none)
      | some (r', resErr) =>
        match resErr with
        | some e => ([FetchEvent.consumed a], some (r', some e))
        | none =>
          if count + 1 = numExpectedResources then
            ([FetchEvent.consumed a], some (r', none))
          else
            (FetchEvent.consumed a :: (brokerInfoLoopTr f rest r' (count + 1)).1,
             (brokerInfoLoopTr f rest r' (count + 1)).2) := rfl

lemma loop_all_ok (f : Resource → httpResponse Value) (v : (a : Resource) → Value a)
    (hres : ∀ a, (f a).result = ⟨a, v a⟩)
    (herr : ∀ a, a ≠ Resource.overview → (f a).err = none) :
    ∀ (order : List Resource) (r : BrokerInfo Value) (count : Nat),
      count + order.length = numExpectedResources → order ≠ [] →
      brokerInfoLoop f order r count =
        some (order.foldl (fun acc b => setField acc b (v b)) r, none)
  | [], _, _, _, hne => absurd rfl hne
  | a :: rest, r, count, hcount, _ => by
    have hsel := selectCase_eq f a r (v a) (hres a)
    have hch : (if a = Resource.overview then none else (f a).err) =
        (none : Option GoError) := by
      by_cases h : a = Resource.overview
      · simp [h]
      · simp [h, herr a h]
    rw [hch] at hsel
    cases rest with
    | nil =>
      have h6 : count + 1 = numExpectedResources := by
        simpa using hcount
      rw [brokerInfoLoop_cons]
      simp only [hsel]
      rw [if_pos h6]
      rfl
    | cons b t =>
      have h6 : ¬(count + 1 = numExpectedResources) := by
        simp only [List.length_cons, numExpectedResources] at hcount ⊢
        omega
      have ih := loop_all_ok f v hres herr (b :: t) (setField r a (v a)) (count + 1)
        (by simp only [List.length_cons, numExpectedResources] at hcount ⊢; omega)
        (by simp)
      rw [brokerInfoLoop_cons]
      simp only [hsel]
      rw [if_neg h6]
      conv_rhs => rw [List.foldl_cons]
      exact ih

lemma loop_first_err (f : Resource → httpResponse Value)
    (hkind : ∀ a, ((f a).result).1 = a) :
    ∀ (order : List Resource) (r : BrokerInfo Value) (count : Nat),
      count + order.length = numExpectedResources →
      (∃ b, b ∈ order ∧ b ≠ Resource.overview ∧ ((f b).err).isSome = true) →
      ∃ r' a, a ∈ order ∧ a ≠ Resource.overview ∧ ((f a).err).isSome = true ∧
        brokerInfoLoop f order r count = some (r', (f a).err)
  | [], _, _, _, hex => by
    rcases hex with ⟨b, hb, _⟩
    exact absurd hb (List.not_mem_nil b)
  | a :: rest, r, count, hcount, hex => by
    obtain ⟨x, hfa⟩ := sigma_eta_of_fst ((f a).result) a (hkind a)
    have hsel := selectCase_eq f a r x hfa
    by_cases hcase : a ≠ Resource.overview ∧ ((f a).err).isSome = true
    · rcases hcase with ⟨hov, hsome⟩
      rcases Option.isSome_iff_exists.mp hsome with ⟨e, he⟩
      refine ⟨setField r a x, a, List.mem_cons_self a rest, hov, hsome, ?_⟩
      rw [if_neg hov, he] at hsel
      rw [brokerInfoLoop_cons]
      simp only [hsel]
      rw [he]
    · have hch : (if a = Resource.overview then none else (f a).err) =
          (none : Option GoError) := by
        by_cases h : a = Resource.overview
        · simp [h]
        · have hns : ¬((f a).err).isSome = true := fun hs => hcase ⟨h, hs⟩
          simp [h, Option.not_isSome_iff_eq_none.mp hns]
      rw [hch] at hsel
      rcases hex with ⟨b, hb, hbov, hbsome⟩
      have hbrest : b ∈ rest := by
        rcases List.mem_cons.mp hb with hba | h
        · exact absurd (hba ▸ ⟨hbov, hbsome⟩) hcase
        · exact h
      cases rest with
      | nil => exact absurd hbrest (List.not_mem_nil b)
      | cons c t =>
        have h6 : ¬(count + 1 = numExpectedResources) := by
          simp only [List.length_cons, numExpectedResources] at hcount ⊢
          omega
        have ih := loop_first_err f hkind (c :: t) (setField r a x) (count + 1)
          (by simp only [List.length_cons, numExpectedResources] at hcount ⊢; omega)
          ⟨b, hbrest, hbov, hbsome⟩
        rcases ih with ⟨r', a', ha', hov', hsome', heq⟩
        refine ⟨r', a', List.mem_cons_of_mem a ha', hov', hsome', ?_⟩
        rw [brokerInfoLoop_cons]
        simp only [hsel]
        rw [if_neg h6]
        exact heq

lemma loopTr_consumed (f : Resource → httpResponse Value) :
    ∀ (order : List Resource) (r : BrokerInfo Value) (count : Nat)
      (e : FetchEvent), e ∈ (brokerInfoLoopTr f order r count).1 →
      ∃ a, e = FetchEvent.consumed a
  | [], _, _, e, he => absurd he (List.not_mem_nil e)
  | a :: rest, r, count, e, he => by
    rw [brokerInfoLoopTr_cons] at he
    rcases hsel : selectCase f a r with _ | ⟨r', resErr⟩
    · rw [hsel] at he
      simp at he
      exact ⟨a, he⟩
    · rw [hsel] at he
      rcases resErr with _ | e'
      · by_cases h6 : count + 1 = numExpectedResources
        · simp [h6] at he
          exact ⟨a, he⟩
        · simp [h6] at he
          rcases he with he | he
          · exact ⟨a, he⟩
          · exact loopTr_consumed f rest r' (count + 1) e he
      · simp at he
        exact ⟨a, he⟩

lemma loopTr_result (f : Resource → httpResponse Value) :
    ∀ (order : List Resource) (r : BrokerInfo Value) (count : Nat),
      (brokerInfoLoopTr f order r count).2 = brokerInfoLoop f order r count
  | [], _, _ => rfl
  | a :: rest, r, count => by
    rw [brokerInfoLoopTr_cons, brokerInfoLoop_cons]
    rcases hsel : selectCase f a r with _ | ⟨r', resErr⟩
    · rfl
    · rcases resErr with _ | e'
      · dsimp only
        by_cases h6 : count + 1 = numExpectedResources
        · rw [if_pos h6, if_pos h6]
        · rw [if_neg h6, if_neg h6]
          exact loopTr_result f rest r' (count + 1)
      · rfl

lemma append_P_before {α : Type} (P : α → Prop) :
    ∀ (l₁ l₂ : List α), (∀ e ∈ l₁, P e) → (∀ e ∈ l₂, ¬P e) →
    ∀ (i j : Nat) (hi : i < (l₁ ++ l₂).length) (hj : j < (l₁ ++ l₂).length),
      P ((l₁ ++ l₂).get ⟨i, hi⟩) → ¬P ((l₁ ++ l₂).get ⟨j, hj⟩) → i < j := by
  intro l₁
  induction l₁ with
  | nil =>
    intro l₂ h₁ h₂ i j hi hj hPi hPj
    exact absurd hPi (h₂ _ (List.get_mem l₂ i hi))
  | cons a l₁ ih =>
    intro l₂ h₁ h₂ i j hi hj hPi hPj
    cases j with
    | zero => exact absurd (h₁ a (List.mem_cons_self a l₁)) hPj
    | succ j =>
      cases i with
      | zero => exact Nat.succ_pos j
      | succ i =>
        exact Nat.succ_lt_succ
          (ih l₂ (fun e he => h₁ e (List.mem_cons_of_mem a he)) h₂ i j
            (Nat.lt_of_succ_lt_succ hi) (Nat.lt_of_succ_lt_succ hj) hPi hPj)

end Lemmas

/-! Concrete instantiations used to evaluate the model on explicit inputs. -/

/-- Concrete payload family: every resource decodes to a natural number. -/
abbrev ValueN : Resource → Type := fun _ => Nat

/-- Concrete payload family for the connections example: each resource
decodes to a list of record names. -/
abbrev ValueL : Resource → Type := fun _ => List String

/-- A concrete client instance. -/
def rmqc : RabbitHTTPClient := { uri := "http://localhost:15672/api" }

/-- Concrete decoder: the body "ok" decodes to 1, anything else is a JSON
syntax error, which leaves the target at its zero value. -/
def decodeOne : (a : Resource) → String → ValueN a × Option String :=
  fun _ body => if body = "ok" then (1, none) else (0, some "invalid character")

/-- Concrete decoder: the body "ok2" decodes to 2, anything else is a JSON
syntax error, which leaves the target at its zero value. -/
def decodeTwo : (a : Resource) → String → ValueN a × Option String :=
  fun _ body =>
    if body = "ok2" then (2, none)
    else (0, some "unexpected end of JSON input")

/-- Distinct concrete payload values, one per resource. -/
def valOf : Resource → Nat
  | .overview => 11
  | .connections => 12
  | .exchanges => 13
  | .queues => 14
  | .consumers => 15
  | .bindings => 16

/-- Concrete decoder: the body "payload" decodes to a per-resource value. -/
def decodeVal : (a : Resource) → String → ValueN a × Option String :=
  fun a body => if body = "payload" then (valOf a, none) else (0, some "bad payload")

/-- Concrete decoder for a two-element connections list. -/
def decodeConnPair : (a : Resource) → String → ValueL a × Option String :=
  fun _ body =>
    if body = "[conn1,conn2]" then (["conn1", "conn2"], none)
    else ([], some "cannot unmarshal")

/-- Concrete decoder exhibiting `json.Unmarshal`'s documented behaviour on
a type-mismatch error: it skips the offending field and completes the
unmarshaling as best it can, so the error is returned while the target is
left partially populated (here: the first record decoded, the second
dropped). -/
def decodePartial : (a : Resource) → String → ValueL a × Option String :=
  fun _ body =>
    if body = "[conn1,conn2]" then (["conn1", "conn2"], none)
    else if body = "[conn1,badrecord]" then
      (["conn1"], some "cannot unmarshal string into Go struct field")
    else ([], some "invalid character")

/-- Transport behaviour where every fetch returns HTTP 200 with body "ok". -/
def outcomeOk : Resource → GetOutcome :=
  fun _ => GetOutcome.response 200 "OK" "ok"

/-- Transport behaviour where the overview fetch fails at the transport
level and the five other fetches succeed. -/
def outcomeOverviewDown : Resource → GetOutcome :=
  fun a =>
    if a = Resource.overview then GetOutcome.transportErr "connection refused"
    else outcomeOk a

/-- Transport behaviour where every fetch returns HTTP 200 but the overview
body does not decode. -/
def outcomeOverviewBadBody : Resource → GetOutcome :=
  fun a =>
    if a = Resource.overview then GetOutcome.response 200 "OK" "garbage"
    else GetOutcome.response 200 "OK" "ok2"

/-- Transport behaviour where every fetch returns HTTP 200 with body
"payload". -/
def outcomeAllOk : Resource → GetOutcome :=
  fun _ => GetOutcome.response 200 "OK" "payload"

/-- Transport behaviour where the queues fetch gets HTTP 503, the bindings
fetch fails at the transport level, and the other four succeed. -/
def outcomeTwoDown : Resource → GetOutcome :=
  fun a =>
    if a = Resource.queues then GetOutcome.response 503 "Service Unavailable" ""
    else if a = Resource.bindings then GetOutcome.transportErr "i/o timeout"
    else outcomeOk a

/-- An arrival order in which the connections result is consumed first. -/
def orderConnFirst : List Resource :=
  [.connections, .overview, .exchanges, .queues, .consumers, .bindings]

/-! The claims. -/

/-- C1: refuted by the code (code bug).  The claim says that whenever one
of the six fetches consumed by `BrokerInfo` completes with an error, the
method returns that error.  With the overview fetch failing at the
transport level and the five other fetches succeeding, `BrokerInfo`
returns a nil error (first conjunct) even though the overview fetch really
produced an error (second conjunct): in the source the select clause
`case res := <-overview:` declares a fresh `res` that shadows the outer
`var res httpResponse`, so the `if res.err != nil` check after the select
never sees the overview error. -/
theorem brokerInfo_swallows_overview_fetch_error :
    (rmqc.BrokerInfo decodeOne outcomeOverviewDown allResources).map Prod.snd =
        some none ∧
      (rmqc.brokerChannels decodeOne outcomeOverviewDown Resource.overview).err =
        some (GoError.transport "connection refused") :=
  ⟨rfl, rfl⟩

/-- C2: refuted by the code (code bug, same shadowed-variable slip as C1).
The claim says a nil error implies a complete snapshot.  With every fetch
returning HTTP 200 but the overview body failing to decode, `BrokerInfo`
returns a nil error (first conjunct) while the snapshot's `Overview` field
is the zero value `0` left by `reflect.New` (second conjunct), not the
decoded value of a successful fetch: the overview fetch errored (third
conjunct). -/
theorem brokerInfo_nil_error_despite_failed_overview :
    (rmqc.BrokerInfo decodeTwo outcomeOverviewBadBody orderConnFirst).map Prod.snd =
        some none ∧
      (rmqc.BrokerInfo decodeTwo outcomeOverviewBadBody orderConnFirst).map
          (fun p => getField p.1 Resource.overview) = some 0 ∧
      (rmqc.brokerChannels decodeTwo outcomeOverviewBadBody Resource.overview).err =
        some (GoError.decodeErr "unexpected end of JSON input") :=
  ⟨rfl, rfl, rfl⟩

/-- C3: if every one of the six fetches succeeds (HTTP 200 and the body
decodes to `v a`), then for every arrival order of the six completions
`BrokerInfo` returns a nil error together with a snapshot in which each of
the six fields equals its fetch's decoded value (so no field is left at a
value other than the one decoded for it). -/
theorem brokerInfo_all_success {Value : Resource → Type}
    [∀ a, Inhabited (Value a)]
    (decode : (a : Resource) → String → Value a × Option String)
    (s : RabbitHTTPClient) (outcome : Resource → GetOutcome)
    (order : List Resource) (text body : Resource → String)
    (v : (a : Resource) → Value a)
    (houtcome : ∀ a, outcome a = GetOutcome.response 200 (text a) (body a))
    (hdecode : ∀ a, decode a (body a) = (v a, none))
    (hperm : order.Perm allResources) :
    ∃ snap, s.BrokerInfo decode outcome order = some (snap, none) ∧
      ∀ a, getField snap a = v a := by
  have hch : ∀ a, s.brokerChannels decode outcome a =
      { result := ⟨a, v a⟩, err := none } := by
    intro a
    rw [brokerChannels_eq, houtcome a]
    exact getResource_ok decode s { uri := s.uri ++ resourcePath a, t := a }
      (text a) (body a) (v a) (hdecode a)
  have hres : ∀ a, (s.brokerChannels decode outcome a).result = ⟨a, v a⟩ := by
    intro a
    rw [hch a]
  have herr : ∀ a, a ≠ Resource.overview →
      (s.brokerChannels decode outcome a).err = none := by
    intro a _
    rw [hch a]
  have hlen : (0 : Nat) + order.length = numExpectedResources := by
    rw [hperm.length_eq]
    rfl
  have hne : order ≠ [] := by
    intro h
    rw [h] at hperm
    have hl := hperm.length_eq
    simp [allResources] at hl
  have hloop := loop_all_ok (s.brokerChannels decode outcome) v hres herr order
    BrokerInfo.zero 0 hlen hne
  refine ⟨order.foldl (fun acc b => setField acc b (v b)) BrokerInfo.zero, hloop, ?_⟩
  intro a
  rw [getField_foldl]
  have hmem : a ∈ order := hperm.mem_iff.mpr (by cases a <;> simp [allResources])
  rw [if_pos hmem]

/-- Witness for C3 at a concrete all-success input. -/
theorem brokerInfo_all_success_witness :
    ∃ snap, rmqc.BrokerInfo decodeVal outcomeAllOk allResources = some (snap, none) ∧
      ∀ a, getField snap a = valOf a := by
  exact brokerInfo_all_success decodeVal rmqc outcomeAllOk allResources
    (fun _ => "OK") (fun _ => "payload") valOf (fun _ => rfl) (fun _ => rfl)
    (List.Perm.refl allResources)

/-- C4: the fetch contract of `getResource`.  A transport failure yields
the transport error; any status other than 200 yields an error carrying
the status text; a decode failure on a 200 response yields the decode
error; and the result carries a nil error if and only if the transport
succeeded, the status was exactly 200 and the body decoded, in which case
the result holds the decoded value. -/
theorem getResource_contract {Value : Resource → Type}
    [∀ a, Inhabited (Value a)]
    (decode : (a : Resource) → String → Value a × Option String)
    (s : RabbitHTTPClient) (request : httpRequest) (o : GetOutcome) :
    (∀ msg, o = GetOutcome.transportErr msg →
        (s.getResource decode request o).err = some (GoError.transport msg)) ∧
      (∀ code text body, o = GetOutcome.response code text body → code ≠ 200 →
        (s.getResource decode request o).err =
          some (GoError.statusErr (statusLine code text))) ∧
      (∀ text body v e, o = GetOutcome.response 200 text body →
        decode request.t body = (v, some e) →
        (s.getResource decode request o).err = some (GoError.decodeErr e)) ∧
      ((s.getResource decode request o).err = none ↔
        ∃ text body v, o = GetOutcome.response 200 text body ∧
          decode request.t body = (v, none) ∧
          (s.getResource decode request o).result = ⟨request.t, v⟩) := by
  refine ⟨?_, ?_, ?_, ?_⟩
  · rintro msg rfl
    rw [getResource_transportErr]
  · rintro code text body rfl hne
    rw [getResource_badStatus decode s request code text body hne]
  · rintro text body v e rfl hd
    rw [getResource_decodeErr decode s request text body v e hd]
  · constructor
    · intro hnone
      cases o with
      | transportErr msg =>
        rw [getResource_transportErr] at hnone
        simp at hnone
      | response code text body =>
        by_cases hc : code = 200
        · subst hc
          rcases hd : decode request.t body with ⟨v, _ | e⟩
          · exact ⟨text, body, v, rfl, hd,
              by rw [getResource_ok decode s request text body v hd]⟩
          · rw [getResource_decodeErr decode s request text body v e hd] at hnone
            simp at hnone
        · rw [getResource_badStatus decode s request code text body hc] at hnone
          simp at hnone
    · rintro ⟨text, body, v, rfl, hd, _⟩
      rw [getResource_ok decode s request text body v hd]

/-- Witness for C4 at a concrete 503 response. -/
theorem getResource_contract_witness :
    (rmqc.getResource decodeOne
        { uri := "http://localhost:15672/api/queues", t := Resource.queues }
        (GetOutcome.response 503 "Service Unavailable" "")).err =
      some (GoError.statusErr (statusLine 503 "Service Unavailable")) := by
  exact (getResource_contract decodeOne rmqc
    { uri := "http://localhost:15672/api/queues", t := Resource.queues }
    (GetOutcome.response 503 "Service Unavailable" "")).2.1
    503 "Service Unavailable" "" rfl (by decide)

/-- C5: if exactly two of the six fetches consumed by `BrokerInfo` produce
errors and the other four succeed, then for every arrival order of the six
completions `BrokerInfo` returns a non-nil error, and the error returned
is one of the two errors actually produced — never a synthesized one. -/
theorem brokerInfo_two_failures_returns_one {Value : Resource → Type}
    [∀ a, Inhabited (Value a)]
    (decode : (a : Resource) → String → Value a × Option String)
    (s : RabbitHTTPClient) (outcome : Resource → GetOutcome)
    (order : List Resource) (r1 r2 : Resource) (e1 e2 : GoError)
    (hne : r1 ≠ r2)
    (h1 : (s.brokerChannels decode outcome r1).err = some e1)
    (h2 : (s.brokerChannels decode outcome r2).err = some e2)
    (hok : ∀ a, a ≠ r1 → a ≠ r2 → (s.brokerChannels decode outcome a).err = none)
    (hperm : order.Perm allResources) :
    ∃ snap e, (e = e1 ∨ e = e2) ∧
      s.BrokerInfo decode outcome order = some (snap, some e) := by
  have hkind : ∀ a, ((s.brokerChannels decode outcome a).result).1 = a := by
    intro a
    rw [brokerChannels_eq]
    exact getResource_result_fst decode s _ (outcome a)
  obtain ⟨b, hbov, hbf⟩ : ∃ b, b ≠ Resource.overview ∧ (b = r1 ∨ b = r2) := by
    by_cases h : r1 = Resource.overview
    · refine ⟨r2, ?_, Or.inr rfl⟩
      intro hh
      exact hne (h.trans hh.symm)
    · exact ⟨r1, h, Or.inl rfl⟩
  have hbsome : ((s.brokerChannels decode outcome b).err).isSome = true := by
    rcases hbf with rfl | rfl
    · rw [h1]
      rfl
    · rw [h2]
      rfl
  have hmem : b ∈ order := hperm.mem_iff.mpr (by cases b <;> simp [allResources])
  have hlen : (0 : Nat) + order.length = numExpectedResources := by
    rw [hperm.length_eq]
    rfl
  obtain ⟨r', a, _, _, hasome, heq⟩ :=
    loop_first_err (s.brokerChannels decode outcome) hkind order BrokerInfo.zero 0
      hlen ⟨b, hmem, hbov, hbsome⟩
  have ha12 : a = r1 ∨ a = r2 := by
    by_contra hcon
    push_neg at hcon
    rw [hok a hcon.1 hcon.2] at hasome
    simp at hasome
  rcases ha12 with rfl | rfl
  · exact ⟨r', e1, Or.inl rfl, heq.trans (by rw [h1])⟩
  · exact ⟨r', e2, Or.inr rfl, heq.trans (by rw [h2])⟩

/-- Witness for C5: queues fails with HTTP 503, bindings fails at the
transport level, the other four fetches succeed. -/
theorem brokerInfo_two_failures_returns_one_witness :
    ∃ snap e, (e = GoError.statusErr (statusLine 503 "Service Unavailable") ∨
        e = GoError.transport "i/o timeout") ∧
      rmqc.BrokerInfo decodeOne outcomeTwoDown allResources = some (snap, some e) := by
  exact brokerInfo_two_failures_returns_one decodeOne rmqc outcomeTwoDown allResources
    Resource.queues Resource.bindings
    (GoError.statusErr (statusLine 503 "Service Unavailable"))
    (GoError.transport "i/o timeout")
    (by decide) rfl rfl
    (by
      intro a ha hb
      cases a
      · rfl
      · rfl
      · rfl
      · exact absurd rfl ha
      · rfl
      · exact absurd rfl hb)
    (List.Perm.refl allResources)

/-- C6: every per-resource accessor returns exactly the value and exactly
the error of its single underlying fetch, unchanged (first conjunct, via
the dispatcher `fetchOne` over the six accessors); in particular the
`Connections` accessor on an HTTP 200 response carrying a valid
two-element connections list returns exactly those two decoded records and
a nil error (second conjunct). -/
theorem accessors_propagate_fetch_result {Value : Resource → Type}
    [∀ a, Inhabited (Value a)]
    (decode : (a : Resource) → String → Value a × Option String) :
    (∀ (s : RabbitHTTPClient) (a : Resource) (o : GetOutcome),
        ∃ v, (s.getResource decode { uri := s.uri ++ resourcePath a, t := a } o).result
            = ⟨a, v⟩ ∧
          s.fetchOne decode a o =
            some (v, (s.getResource decode
              { uri := s.uri ++ resourcePath a, t := a } o).err)) ∧
      rmqc.Connections decodeConnPair (GetOutcome.response 200 "OK" "[conn1,conn2]") =
        some (["conn1", "conn2"], none) := by
  constructor
  · intro s a o
    obtain ⟨v, hv⟩ := sigma_eta_of_fst
      ((s.getResource decode { uri := s.uri ++ resourcePath a, t := a } o).result) a
      (getResource_result_fst decode s _ o)
    refine ⟨v, hv, ?_⟩
    rw [fetchOne_eq, hv, assertAs_self]
    rfl
  · rfl

/-- C7: the deletion contract of `delResource`.  The call succeeds (nil
error) iff the DELETE completed with HTTP status 200 or 204; any other
status yields an error carrying the status text; a 404 yields an error
whose text starts with "404"; and `CloseConnection` is such a deletion on
the connection's resource uri. -/
theorem delResource_contract (s : RabbitHTTPClient) (u : String) (o : DelOutcome) :
    (s.delResource u o = none ↔
        ∃ code text, o = DelOutcome.response code text ∧ (code = 200 ∨ code = 204)) ∧
      (∀ code text, o = DelOutcome.response code text → code ≠ 200 → code ≠ 204 →
        s.delResource u o = some (GoError.statusErr (statusLine code text))) ∧
      (∀ text, o = DelOutcome.response 404 text →
        ∃ tail, s.delResource u o = some (GoError.statusErr (statusLine 404 text)) ∧
          (statusLine 404 text).data = ("404").data ++ tail) ∧
      (∀ conn reason, s.CloseConnection conn reason o =
        s.delResource (s.uri ++ "/connections/" ++ conn) o) := by
  refine ⟨?_, ?_, ?_, ?_⟩
  · constructor
    · intro hnone
      cases o with
      | newRequestErr msg => simp [RabbitHTTPClient.delResource] at hnone
      | doErr msg => simp [RabbitHTTPClient.delResource] at hnone
      | response code text =>
        refine ⟨code, text, rfl, ?_⟩
        by_contra hcon
        push_neg at hcon
        simp [RabbitHTTPClient.delResource, hcon.1, hcon.2] at hnone
    · rintro ⟨code, text, rfl, hc⟩
      rcases hc with rfl | rfl <;> simp [RabbitHTTPClient.delResource]
  · rintro code text rfl h200 h204
    simp [RabbitHTTPClient.delResource, h200, h204]
  · rintro text rfl
    refine ⟨(" " ++ text).data, ?_, rfl⟩
    simp [RabbitHTTPClient.delResource]
  · intro conn reason
    rfl

/-- Witness for C7: a 204 response reports success, a 404 response reports
an error whose text starts with "404". -/
theorem delResource_contract_witness :
    rmqc.delResource "http://localhost:15672/api/connections/c1"
        (DelOutcome.response 204 "No Content") = none ∧
      ∃ tail, rmqc.delResource "http://localhost:15672/api/connections/c1"
          (DelOutcome.response 404 "Not Found") =
            some (GoError.statusErr (statusLine 404 "Not Found")) ∧
        (statusLine 404 "Not Found").data = ("404").data ++ tail := by
  constructor
  · exact (delResource_contract rmqc "http://localhost:15672/api/connections/c1"
      (DelOutcome.response 204 "No Content")).1.mpr
      ⟨204, "No Content", rfl, Or.inr rfl⟩
  · exact (delResource_contract rmqc "http://localhost:15672/api/connections/c1"
      (DelOutcome.response 404 "Not Found")).2.2.1 "Not Found" rfl

/-- C8: in every execution of `BrokerInfo`, all six fetches are started
before any fetch result is consumed: in the event trace, every `started`
event precedes every `consumed` event (first conjunct); the traced
execution computes the same result as `BrokerInfo` (second conjunct). -/
theorem brokerInfo_starts_before_consumes {Value : Resource → Type}
    [∀ a, Inhabited (Value a)]
    (decode : (a : Resource) → String → Value a × Option String)
    (s : RabbitHTTPClient) (outcome : Resource → GetOutcome)
    (order : List Resource) (i j : Nat)
    (hi : i < ((s.BrokerInfoTr decode outcome order).1).length)
    (hj : j < ((s.BrokerInfoTr decode outcome order).1).length)
    (x y : Resource)
    (hx : ((s.BrokerInfoTr decode outcome order).1).get ⟨i, hi⟩ = FetchEvent.started x)
    (hy : ((s.BrokerInfoTr decode outcome order).1).get ⟨j, hj⟩ = FetchEvent.consumed y) :
    i < j ∧ (s.BrokerInfoTr decode outcome order).2 =
      s.BrokerInfo decode outcome order := by
  constructor
  · refine append_P_before (fun e => ∃ z, e = FetchEvent.started z)
      [FetchEvent.started Resource.overview, FetchEvent.started Resource.connections,
        FetchEvent.started Resource.exchanges, FetchEvent.started Resource.queues,
        FetchEvent.started Resource.consumers, FetchEvent.started Resource.bindings]
      ((brokerInfoLoopTr (s.brokerChannels decode outcome) order BrokerInfo.zero 0).1)
      ?_ ?_ i j hi hj ⟨x, hx⟩ ?_
    · intro e he
      simp only [List.mem_cons, List.not_mem_nil, or_false] at he
      rcases he with rfl | rfl | rfl | rfl | rfl | rfl <;> exact ⟨_, rfl⟩
    · intro e he hP
      obtain ⟨a0, ha0⟩ := loopTr_consumed (s.brokerChannels decode outcome)
        order BrokerInfo.zero 0 e he
      rcases hP with ⟨z, hz⟩
      rw [ha0] at hz
      exact FetchEvent.noConfusion hz
    · intro hP
      rcases hP with ⟨z, hz⟩
      have hz' : ((s.BrokerInfoTr decode outcome order).1).get ⟨j, hj⟩ =
          FetchEvent.started z := hz
      rw [hy] at hz'
      exact FetchEvent.noConfusion hz'
  · exact loopTr_result (s.brokerChannels decode outcome) order BrokerInfo.zero 0

/-- Witness for C8 at a concrete all-success run: position 0 of the trace
is a start event, position 6 a consume event, and 0 < 6. -/
theorem brokerInfo_starts_before_consumes_witness :
    (0 : Nat) < 6 ∧
      (rmqc.BrokerInfoTr decodeOne outcomeOk allResources).2 =
        rmqc.BrokerInfo decodeOne outcomeOk allResources := by
  exact brokerInfo_starts_before_consumes decodeOne rmqc outcomeOk allResources 0 6
    (by decide) (by decide) Resource.overview Resource.overview (by decide) (by decide)

/-- C9: counterexample to the claim as stated.  Go's `json.Unmarshal` is
documented to skip a field it cannot decode into the target and complete
the unmarshaling as best it can, returning the type-mismatch error while
leaving the freshly allocated target partially populated.  With a decoder
exhibiting that documented behaviour, a failed connections fetch makes the
accessor return a non-zero one-element list together with the decode
error — not the zero value of the resource type that the claim requires
on every failed fetch. -/
theorem connections_accessor_partial_value_on_decode_error :
    rmqc.Connections decodePartial
        (GetOutcome.response 200 "OK" "[conn1,badrecord]") =
      some (["conn1"],
        some (GoError.decodeErr "cannot unmarshal string into Go struct field")) ∧
      (["conn1"] : ValueL Resource.connections) ≠ default :=
  ⟨rfl, by decide⟩

/-- C9 (amended): every `getResource` invocation performs exactly one send
on its channel (first conjunct); the delivered result is always tagged
with the requested type (second conjunct); it is the type's zero value
whenever the fetch failed before decoding began — transport failure
(third conjunct) or non-200 status (fourth conjunct) — while on a decode
error it carries whatever the decoder left in the freshly allocated
target, which may be partially populated; consequently the type
assertions performed by `BrokerInfo` (fifth conjunct) and by every
per-resource accessor (sixth conjunct) never panic, and on a failed fetch
an accessor returns the value delivered by that fetch together with the
error (seventh conjunct), which for a pre-decode failure such as a
transport error is exactly the zero value (eighth conjunct). -/
theorem getResource_single_delivery_typed {Value : Resource → Type}
    [∀ a, Inhabited (Value a)]
    (decode : (a : Resource) → String → Value a × Option String) :
    (∀ (s : RabbitHTTPClient) (request : httpRequest) (o : GetOutcome),
        s.getResourceSends decode request o = [s.getResource decode request o]) ∧
      (∀ (s : RabbitHTTPClient) (request : httpRequest) (o : GetOutcome),
        ((s.getResource decode request o).result).1 = request.t) ∧
      (∀ (s : RabbitHTTPClient) (request : httpRequest) (msg : String),
        (s.getResource decode request (GetOutcome.transportErr msg)).result =
          ⟨request.t, default⟩) ∧
      (∀ (s : RabbitHTTPClient) (request : httpRequest) (code : Nat)
        (text body : String), code ≠ 200 →
        (s.getResource decode request (GetOutcome.response code text body)).result =
          ⟨request.t, default⟩) ∧
      (∀ (s : RabbitHTTPClient) (outcome : Resource → GetOutcome) (a : Resource)
        (r : BrokerInfo Value),
        (selectCase (s.brokerChannels decode outcome) a r).isSome = true) ∧
      (∀ (s : RabbitHTTPClient) (a : Resource) (o : GetOutcome),
        (s.fetchOne decode a o).isSome = true) ∧
      (∀ (s : RabbitHTTPClient) (a : Resource) (o : GetOutcome) (e : GoError),
        (s.getResource decode { uri := s.uri ++ resourcePath a, t := a } o).err = some e →
        ∃ v, (s.getResource decode { uri := s.uri ++ resourcePath a, t := a } o).result
            = ⟨a, v⟩ ∧
          s.fetchOne decode a o = some (v, some e)) ∧
      (∀ (s : RabbitHTTPClient) (a : Resource) (msg : String),
        s.fetchOne decode a (GetOutcome.transportErr msg) =
          some (default, some (GoError.transport msg))) := by
  refine ⟨?_, ?_, ?_, ?_, ?_, ?_, ?_, ?_⟩
  · intro s request o
    cases o with
    | transportErr msg => rfl
    | response code text body =>
      by_cases h : code = 200
      · subst h
        rcases hd : decode request.t body with ⟨v, _ | e⟩ <;>
          simp [RabbitHTTPClient.getResourceSends, RabbitHTTPClient.getResource, hd]
      · simp [RabbitHTTPClient.getResourceSends, RabbitHTTPClient.getResource, h]
  · intro s request o
    exact getResource_result_fst decode s request o
  · intro s request msg
    rfl
  · intro s request code text body h
    rw [getResource_badStatus decode s request code text body h]
  · intro s outcome a r
    have hkind : ((s.brokerChannels decode outcome a).result).1 = a := by
      rw [brokerChannels_eq]
      exact getResource_result_fst decode s _ (outcome a)
    obtain ⟨x, hfa⟩ := sigma_eta_of_fst _ a hkind
    rw [selectCase_eq (s.brokerChannels decode outcome) a r x hfa]
    rfl
  · intro s a o
    obtain ⟨x, hv⟩ := sigma_eta_of_fst
      ((s.getResource decode { uri := s.uri ++ resourcePath a, t := a } o).result) a
      (getResource_result_fst decode s _ o)
    rw [fetchOne_eq, hv, assertAs_self]
    rfl
  · intro s a o e he
    obtain ⟨v, hv⟩ := sigma_eta_of_fst
      ((s.getResource decode { uri := s.uri ++ resourcePath a, t := a } o).result) a
      (getResource_result_fst decode s _ o)
    refine ⟨v, hv, ?_⟩
    rw [fetchOne_eq, hv, assertAs_self, he]
    rfl
  · intro s a msg
    have hres : (s.getResource decode { uri := s.uri ++ resourcePath a, t := a }
        (GetOutcome.transportErr msg)).result = ⟨a, (default : Value a)⟩ := rfl
    have herr : (s.getResource decode { uri := s.uri ++ resourcePath a, t := a }
        (GetOutcome.transportErr msg)).err = some (GoError.transport msg) := rfl
    rw [fetchOne_eq, hres, assertAs_self, herr]
    rfl

/-- Witness for C9 (amended) at a concrete transport failure: the
connections accessor returns the zero value together with the error. -/
theorem getResource_single_delivery_typed_witness :
    rmqc.fetchOne decodeOne Resource.connections
        (GetOutcome.transportErr "connection reset") =
      some (0, some (GoError.transport "connection reset")) := by
  exact (getResource_single_delivery_typed decodeOne).2.2.2.2.2.2.2 rmqc
    Resource.connections "connection reset"

/-- C10: `CloseConnection` ignores its `reason` argument: for the same
connection and the same transport behaviour, any two reasons produce the
same DELETE request uri and the same outcome. -/
theorem closeConnection_ignores_reason (s : RabbitHTTPClient)
    (conn r1 r2 : String) (o : DelOutcome) :
    s.closeConnectionUri conn r1 = s.closeConnectionUri conn r2 ∧
      s.CloseConnection conn r1 o = s.CloseConnection conn r2 o :=
  ⟨rfl, rfl⟩

/-- Witness for C6 at the concrete two-element connections input. -/
theorem accessors_propagate_fetch_result_witness :
    ∃ v, (rmqc.getResource decodeConnPair
        { uri := rmqc.uri ++ resourcePath Resource.connections, t := Resource.connections }
        (GetOutcome.response 200 "OK" "[conn1,conn2]")).result = ⟨Resource.connections, v⟩ ∧
      rmqc.fetchOne decodeConnPair Resource.connections
          (GetOutcome.response 200 "OK" "[conn1,conn2]") =
        some (v, (rmqc.getResource decodeConnPair
          { uri := rmqc.uri ++ resourcePath Resource.connections, t := Resource.connections }
          (GetOutcome.response 200 "OK" "[conn1,conn2]")).err) := by
  exact (accessors_propagate_fetch_result decodeConnPair).1 rmqc Resource.connections
    (GetOutcome.response 200 "OK" "[conn1,conn2]")

/-- Witness for C10 at concrete arguments. -/
theorem closeConnection_ignores_reason_witness :
    rmqc.closeConnectionUri "conn42" "idle" = rmqc.closeConnectionUri "conn42" "other" ∧
      rmqc.CloseConnection "conn42" "idle" (DelOutcome.response 204 "No Content") =
        rmqc.CloseConnection "conn42" "other" (DelOutcome.response 204 "No Content") := by
  exact closeConnection_ignores_reason rmqc "conn42" "idle" "other"
    (DelOutcome.response 204 "No Content")
